import Mathlib

/- Verification of the portmaster network-intelligence cache core.

   Part 1 embeds the resolver package: the ResolvedDomain history attached to
   an IPInfo record, the AddDomain and MostRecentDomain operations, and Save
   with its key assignment and expiry computation.

   Part 2 embeds the filterlists package: the shared lookupBlockLists routine
   and the typed lookup entry points, with the package state that lives outside
   the included sources (loaded flag, pre-filter, cache database) passed as
   explicit state. -/

/-- IPInfoProfileScopeGlobal is the profile scope used for unscoped IPInfo
    entries. -/
def IPInfoProfileScopeGlobal : String := "global"

/-- ResolvedDomain holds a domain name as requested by the application, the
    CNAME chain resolved for it, and the timestamp when the entry expires. -/
structure ResolvedDomain where
  Domain : String
  CNAMEs : List String
  Expires : Int
deriving DecidableEq, Repr

/-- IPInfo represents various information about an IP. The record.Base
    database key is modelled as an optional string (none while unset) and the
    record metadata absolute expiry as an optional integer. -/
structure IPInfo where
  dbKey : Option String
  IP : String
  ProfileID : String
  ResolvedDomains : List ResolvedDomain
  absoluteExpiry : Option Int
deriving DecidableEq, Repr

/-- Deletion step of AddDomain: remove the first entry for the same domain;
    the Go loop breaks after the first match. -/
def removeFirstDomain : List ResolvedDomain → String → List ResolvedDomain
  | [], _ => []
  | d :: rest, dom => if d.Domain = dom then rest else d :: removeFirstDomain rest dom

/-- AddDomain adds a new resolved domain to the history: delete the old entry
    for the same domain, then add the new entry at the end. -/
def AddDomain (history : List ResolvedDomain) (resolved : ResolvedDomain) : List ResolvedDomain :=
  removeFirstDomain history resolved.Domain ++ [resolved]

/-- MostRecentDomain returns the most recent domain: none when the history is
    empty, otherwise the entry at index length minus one. -/
def MostRecentDomain (history : List ResolvedDomain) : Option ResolvedDomain :=
  if h : history.length = 0 then none
  else some (history.get ⟨history.length - 1, by omega⟩)

/-- makeIPInfoKey builds the database key of an IPInfo record. -/
def makeIPInfoKey (profileID ip : String) : String :=
  "cache:intel/ipInfo/" ++ profileID ++ "/" ++ ip

/-- Expiry fold of Save: start at the initial value and raise it to any larger
    Expires value found in the history. Save calls it with the one-day minimum
    86400 as the initial value. -/
def maxExpires (history : List ResolvedDomain) (init : Int) : Int :=
  history.foldl (fun expires rd => if rd.Expires > expires then rd.Expires else expires) init

/-- Save finalizes an IPInfo record for the database write: set the database
    key if not yet set (defaulting an empty ProfileID to the global scope),
    compute the expiry fold starting at 86400, add the one-hour buffer 3600,
    and store the result as the absolute expiry metadata. The database Put is
    an external effect and is not part of the state transition. -/
def Save (info : IPInfo) : IPInfo :=
  let info1 :=
    if info.dbKey.isSome then info
    else
      let pid := if info.ProfileID = "" then IPInfoProfileScopeGlobal else info.ProfileID
      { info with ProfileID := pid, dbKey := some (makeIPInfoKey pid info.IP) }
  { info1 with absoluteExpiry := some (maxExpires info1.ResolvedDomains 86400 + 3600) }

/-- Specification-side characterization of the history: keep, in order, only
    the occurrences whose domain does not appear again later in the sequence,
    so each domain keeps its most recent entry, ordered by last-seen time. -/
def lastSeenDedup : List ResolvedDomain → List ResolvedDomain
  | [] => []
  | r :: rest =>
    if r.Domain ∈ rest.map ResolvedDomain.Domain then lastSeenDedup rest
    else r :: lastSeenDedup rest

lemma maxExpires_nil (a : Int) : maxExpires [] a = a := rfl

lemma maxExpires_cons (x : ResolvedDomain) (xs : List ResolvedDomain) (a : Int) :
    maxExpires (x :: xs) a = maxExpires xs (if x.Expires > a then x.Expires else a) := rfl

lemma le_maxExpires_init (l : List ResolvedDomain) (a : Int) : a ≤ maxExpires l a := by
  induction l generalizing a with
  | nil => simp [maxExpires_nil]
  | cons x xs ih =>
    rw [maxExpires_cons]
    refine le_trans ?_ (ih (if x.Expires > a then x.Expires else a))
    split <;> omega

lemma mem_le_maxExpires (l : List ResolvedDomain) (rd : ResolvedDomain) (a : Int)
    (h : rd ∈ l) : rd.Expires ≤ maxExpires l a := by
  induction l generalizing a with
  | nil => cases h
  | cons x xs ih =>
    rw [maxExpires_cons]
    rcases List.mem_cons.mp h with rfl | hmem
    · refine le_trans ?_ (le_maxExpires_init xs _)
      split <;> omega
    · exact ih _ hmem

lemma maxExpires_eq_init_or_mem (l : List ResolvedDomain) (a : Int) :
    maxExpires l a = a ∨ ∃ rd ∈ l, maxExpires l a = rd.Expires := by
  induction l generalizing a with
  | nil => left; rfl
  | cons x xs ih =>
    rw [maxExpires_cons]
    rcases ih (if x.Expires > a then x.Expires else a) with h | ⟨rd, hrd, heq⟩
    · by_cases hc : x.Expires > a
      · right
        exact ⟨x, List.mem_cons_self x xs, by rw [h, if_pos hc]⟩
      · left
        rw [h, if_neg hc]
    · right
      exact ⟨rd, List.mem_cons_of_mem x hrd, heq⟩

lemma Save_absoluteExpiry (info : IPInfo) :
    (Save info).absoluteExpiry = some (maxExpires info.ResolvedDomains 86400 + 3600) := by
  unfold Save
  by_cases h : info.dbKey.isSome <;> simp [h]

lemma mem_map_lastSeenDedup (ops : List ResolvedDomain) (d : String) :
    d ∈ (lastSeenDedup ops).map ResolvedDomain.Domain ↔
      d ∈ ops.map ResolvedDomain.Domain := by
  induction ops with
  | nil => simp [lastSeenDedup]
  | cons r rest ih =>
    by_cases h : r.Domain ∈ rest.map ResolvedDomain.Domain
    · simp only [lastSeenDedup, if_pos h, List.map_cons, List.mem_cons, ih]
      exact ⟨Or.inr, fun h2 => h2.elim (fun he => he ▸ h) id⟩
    · simp only [lastSeenDedup, if_neg h, List.map_cons, List.mem_cons, ih]

lemma nodup_lastSeenDedup (ops : List ResolvedDomain) :
    ((lastSeenDedup ops).map ResolvedDomain.Domain).Nodup := by
  induction ops with
  | nil => simp [lastSeenDedup]
  | cons r rest ih =>
    by_cases h : r.Domain ∈ rest.map ResolvedDomain.Domain
    · simpa only [lastSeenDedup, if_pos h] using ih
    · simp only [lastSeenDedup, if_neg h, List.map_cons]
      exact List.nodup_cons.mpr ⟨fun hc => h ((mem_map_lastSeenDedup rest r.Domain).mp hc), ih⟩

lemma lastSeenDedup_concat (ops : List ResolvedDomain) (r : ResolvedDomain) :
    lastSeenDedup (ops ++ [r]) =
      (lastSeenDedup ops).filter (fun x => x.Domain != r.Domain) ++ [r] := by
  induction ops with
  | nil => simp [lastSeenDedup]
  | cons x rest ih =>
    rw [List.cons_append]
    by_cases h1 : x.Domain ∈ rest.map ResolvedDomain.Domain
    · have hmem : x.Domain ∈ (rest ++ [r]).map ResolvedDomain.Domain := by
        rw [List.map_append, List.mem_append]
        exact Or.inl h1
      simp only [lastSeenDedup, if_pos hmem, if_pos h1, ih]
    · by_cases h2 : x.Domain = r.Domain
      · have hmem : x.Domain ∈ (rest ++ [r]).map ResolvedDomain.Domain := by
          rw [List.map_append, List.mem_append]
          exact Or.inr (by simp [h2])
        simp only [lastSeenDedup, if_pos hmem, if_neg h1, ih, List.filter_cons]
        have : (x.Domain != r.Domain) = false := by simp [h2]
        rw [this]
        simp
      · have hmem : x.Domain ∉ (rest ++ [r]).map ResolvedDomain.Domain := by
          rw [List.map_append, List.mem_append]
          rintro (hc | hc)
          · exact h1 hc
          · simp at hc
            exact h2 hc
        simp only [lastSeenDedup, if_neg hmem, if_neg h1, ih, List.filter_cons]
        have : (x.Domain != r.Domain) = true := by simp [h2]
        rw [this]
        simp

lemma removeFirstDomain_eq_filter (l : List ResolvedDomain) (dom : String)
    (h : (l.map ResolvedDomain.Domain).Nodup) :
    removeFirstDomain l dom = l.filter (fun x => x.Domain != dom) := by
  induction l with
  | nil => rfl
  | cons x rest ih =>
    rw [List.map_cons, List.nodup_cons] at h
    unfold removeFirstDomain
    by_cases hx : x.Domain = dom
    · rw [if_pos hx, List.filter_cons]
      have : (x.Domain != dom) = false := by simp [hx]
      rw [this]
      simp only [Bool.false_eq_true, if_false]
      refine (List.filter_eq_self.mpr ?_).symm
      intro a ha
      simp only [bne_iff_ne, ne_eq, decide_eq_true_eq]
      intro he
      have hax : a.Domain = x.Domain := by rw [he, hx]
      exact h.1 (hax ▸ List.mem_map_of_mem ResolvedDomain.Domain ha)
    · rw [if_neg hx, List.filter_cons]
      have : (x.Domain != dom) = true := by simp [hx]
      rw [this]
      simp only [if_true]
      rw [ih h.2]

lemma foldl_AddDomain_eq (ops : List ResolvedDomain) :
    ops.foldl AddDomain [] = lastSeenDedup ops := by
  induction ops using List.reverseRecOn with
  | nil => rfl
  | append_singleton l r ih =>
    rw [List.foldl_append, List.foldl_cons, List.foldl_nil, ih, lastSeenDedup_concat]
    unfold AddDomain
    rw [removeFirstDomain_eq_filter _ _ (nodup_lastSeenDedup l)]

lemma MostRecentDomain_eq_getLast? (l : List ResolvedDomain) :
    MostRecentDomain l = l.getLast? := by
  unfold MostRecentDomain
  by_cases h : l.length = 0
  · rw [dif_pos h]
    rw [List.length_eq_zero] at h
    rw [h]
    rfl
  · rw [dif_neg h, List.getLast?_eq_getElem?, List.getElem?_eq_getElem (by omega)]
    simp [List.get_eq_getElem]

/-- Claim C2: starting from the empty history, after any sequence of AddDomain
    calls the history has at most one entry per distinct domain; it equals the
    last-seen dedup of the call sequence, so each kept entry is the most
    recently added one for its domain and sits at the position given by its
    last-seen order, most recent last; and MostRecentDomain returns the last
    entry of the history, or none when the history is empty. -/
theorem addDomain_dedup_recency (ops : List ResolvedDomain) :
    ((ops.foldl AddDomain []).map ResolvedDomain.Domain).Nodup ∧
    ops.foldl AddDomain [] = lastSeenDedup ops ∧
    MostRecentDomain (ops.foldl AddDomain []) = (ops.foldl AddDomain []).getLast? :=
  ⟨(foldl_AddDomain_eq ops).symm ▸ nodup_lastSeenDedup ops, foldl_AddDomain_eq ops,
   MostRecentDomain_eq_getLast? _⟩

/-- Witness for C2 at the scenario of the specification: adding a.com, b.com,
    a.com in that order. -/
theorem addDomain_dedup_recency_witness :
    ((List.foldl AddDomain []
        [⟨"a.com", [], 100⟩, ⟨"b.com", [], 200⟩, ⟨"a.com", [], 300⟩]).map
          ResolvedDomain.Domain).Nodup ∧
    List.foldl AddDomain [] [⟨"a.com", [], 100⟩, ⟨"b.com", [], 200⟩, ⟨"a.com", [], 300⟩] =
      lastSeenDedup [⟨"a.com", [], 100⟩, ⟨"b.com", [], 200⟩, ⟨"a.com", [], 300⟩] ∧
    MostRecentDomain (List.foldl AddDomain []
        [⟨"a.com", [], 100⟩, ⟨"b.com", [], 200⟩, ⟨"a.com", [], 300⟩]) =
      (List.foldl AddDomain []
        [⟨"a.com", [], 100⟩, ⟨"b.com", [], 200⟩, ⟨"a.com", [], 300⟩]).getLast? :=
  addDomain_dedup_recency [⟨"a.com", [], 100⟩, ⟨"b.com", [], 200⟩, ⟨"a.com", [], 300⟩]

/-- Claim C1 evidence: Save computes the absolute expiry without any reference
    to the current time. With an empty history the stored absolute expiry is
    the constant 90000, namely 86400 + 3600 seconds after the Unix epoch, and
    with a single domain expiring at 1700000100 it is 1700003700; both are
    strictly below now + 86400 + 3600 for a current time of 1700000000, while
    the claim and the code comment about a minimum TTL of one day require at
    least that value. -/
theorem save_expiry_ignores_now :
    (Save { dbKey := none, IP := "1.2.3.4", ProfileID := "",
            ResolvedDomains := [], absoluteExpiry := none }).absoluteExpiry = some 90000 ∧
    (90000 : Int) < 1700000000 + 86400 + 3600 ∧
    (Save { dbKey := none, IP := "1.2.3.4", ProfileID := "",
            ResolvedDomains := [⟨"example.com", [], 1700000100⟩],
            absoluteExpiry := none }).absoluteExpiry = some 1700003700 ∧
    (1700003700 : Int) < 1700000000 + 86400 + 3600 := by
  refine ⟨rfl, by decide, rfl, by decide⟩

/-- Claim C6: when some entry of the history has an Expires value above the
    one-day floor, the absolute expiry stored by Save is exactly the maximum
    Expires over the history plus 3600, and hence never less. The floor is
    taken relative to a nonnegative current time, which also dominates the
    constant 86400 used by the code. -/
theorem save_expiry_monotone (info : IPInfo) (now : Int) (rd : ResolvedDomain)
    (h0 : 0 ≤ now) (hmem : rd ∈ info.ResolvedDomains)
    (hmax : ∀ rd2 ∈ info.ResolvedDomains, rd2.Expires ≤ rd.Expires)
    (hfloor : now + 86400 < rd.Expires) :
    (Save info).absoluteExpiry = some (rd.Expires + 3600) := by
  rw [Save_absoluteExpiry]
  have hub : rd.Expires ≤ maxExpires info.ResolvedDomains 86400 :=
    mem_le_maxExpires _ _ _ hmem
  have heq : maxExpires info.ResolvedDomains 86400 = rd.Expires := by
    rcases maxExpires_eq_init_or_mem info.ResolvedDomains 86400 with h | ⟨rd2, hrd2, h⟩
    · omega
    · have := hmax rd2 hrd2
      omega
  rw [heq]

/-- Witness for C6 at the scenario of the specification: expiries now + 100 and
    now + 200000 for now = 1600000000 yield the absolute expiry
    now + 200000 + 3600. -/
theorem save_expiry_monotone_witness :
    (Save { dbKey := none, IP := "9.9.9.9", ProfileID := "p1",
            ResolvedDomains := [⟨"a.com", [], 1600000100⟩, ⟨"b.com", [], 1600200000⟩],
            absoluteExpiry := none }).absoluteExpiry = some 1600203600 :=
  save_expiry_monotone
    { dbKey := none, IP := "9.9.9.9", ProfileID := "p1",
      ResolvedDomains := [⟨"a.com", [], 1600000100⟩, ⟨"b.com", [], 1600200000⟩],
      absoluteExpiry := none }
    1600000000 ⟨"b.com", [], 1600200000⟩ (by decide) (by decide) (by decide) (by decide)

/-- Claim C10: Save assigns the database key exactly once. On a record without
    a key, Save sets the ProfileID to the global sentinel when it is empty and
    sets the key to the exact string cache:intel/ipInfo/<ProfileID>/<IP>; on a
    record whose key is already set, Save leaves key and ProfileID unchanged,
    and in particular a second Save reuses the key of the first. -/
theorem save_key_assigned_once (info : IPInfo) :
    (info.dbKey = none →
      (Save info).dbKey =
        some ("cache:intel/ipInfo/" ++
          (if info.ProfileID = "" then "global" else info.ProfileID) ++ "/" ++ info.IP) ∧
      (Save info).ProfileID = (if info.ProfileID = "" then "global" else info.ProfileID)) ∧
    (∀ k, info.dbKey = some k →
      (Save info).dbKey = some k ∧ (Save info).ProfileID = info.ProfileID) ∧
    (Save (Save info)).dbKey = (Save info).dbKey := by
  refine ⟨fun hnone => ?_, fun k hsome => ?_, ?_⟩
  · simp [Save, hnone, makeIPInfoKey, IPInfoProfileScopeGlobal]
  · simp [Save, hsome]
  · cases hk : info.dbKey with
    | none => simp [Save, hk]
    | some k => simp [Save, hk]

/-- Witness for C10: a first Save on a record without key and empty ProfileID
    yields the global-scope key, and a Save on a record with a key keeps it. -/
theorem save_key_assigned_once_witness :
    (Save { dbKey := none, IP := "1.2.3.4", ProfileID := "",
            ResolvedDomains := [], absoluteExpiry := none }).dbKey =
      some "cache:intel/ipInfo/global/1.2.3.4" ∧
    (Save { dbKey := some "k0", IP := "5.6.7.8", ProfileID := "p",
            ResolvedDomains := [], absoluteExpiry := none }).dbKey = some "k0" := by
  constructor
  · exact (((save_key_assigned_once
      { dbKey := none, IP := "1.2.3.4", ProfileID := "",
        ResolvedDomains := [], absoluteExpiry := none }).1 rfl).1).trans (by decide)
  · exact ((save_key_assigned_once
      { dbKey := some "k0", IP := "5.6.7.8", ProfileID := "p",
        ResolvedDomains := [], absoluteExpiry := none }).2.1 "k0" rfl).1

/-- StoreResult is the outcome of a record-store get: a found entry carrying
    its Sources list, the NotFound signal, or any other store error. -/
inductive StoreResult where
  | found (sources : List String)
  | notFound
  | storeErr (msg : String)
deriving DecidableEq, Repr

/-- FLState models the filterlists package state that lives outside the
    included source file, following the specification: the loaded flag behind
    isLoaded, the pre-filter behind defaultFilter.test, and the cache database
    behind getEntityRecordByKey. -/
structure FLState where
  loaded : Bool
  test : String → String → Bool
  store : String → StoreResult

/-- isLoaded reports whether the filter list data has been loaded. -/
def isLoaded (st : FLState) : Bool := st.loaded

/-- getEntityRecordByKey loads the entity record stored under key. -/
def getEntityRecordByKey (st : FLState) (key : String) : StoreResult := st.store key

/-- Modelled from the spec: makeListCacheKey is defined outside the included
    sources; the specification gives the entry key format as
    namespace-prefix/EntityKind/normalizedValue with an internal prefix. -/
def makeListCacheKey (entity value : String) : String :=
  "cache:intel/filterlists/" ++ entity ++ "/" ++ value

/-- lookupBlockLists loads the entity record for the key built from entity and
    value and returns the list of blocklist sources the key is part of. A
    missing key is not an error: the empty list is returned. The first
    component is the Go pair of sources slice and error collapsed into an
    Except value; the second component is the trace of store keys queried,
    making the absence of a store round-trip observable. -/
def lookupBlockLists (st : FLState) (entity value : String) :
    Except String (List String) × List String :=
  let key := makeListCacheKey entity value
  if !(isLoaded st) then (Except.ok [], [])
  else if !(st.test entity value) then (Except.ok [], [])
  else
    match getEntityRecordByKey st key with
    | StoreResult.found sources => (Except.ok sources, [key])
    | StoreResult.notFound => (Except.ok [], [key])
    | StoreResult.storeErr msg => (Except.error msg, [key])

/-- Domain normalization of LookupDomain on the character list: lower-case the
    domain, then append a trailing dot when the last character is not already a
    dot. The Go code indexes the final byte of the string, which panics on the
    empty string; the panic is modelled as none. ASCII lower-casing stands in
    for the Go Unicode lower-casing, which agrees with it on domain names. -/
def normalizeDomainChars (l : List Char) : Option (List Char) :=
  match (l.map Char.toLower).getLast? with
  | none => none
  | some c =>
    if c = '.' then some (l.map Char.toLower)
    else some (l.map Char.toLower ++ ['.'])

/-- Domain normalization of LookupDomain, lifted to strings. -/
def normalizeDomain (domain : String) : Option String :=
  (normalizeDomainChars domain.data).map String.mk

/-- LookupCountry returns the sources that mark the country as blocked. -/
def LookupCountry (st : FLState) (country : String) :
    Except String (List String) × List String :=
  lookupBlockLists st "country" country

/-- LookupDomain returns the sources that mark the domain as blocked, after
    normalizing it to a fully qualified lower-case form. The none result
    models the index-out-of-range panic on the empty input. -/
def LookupDomain (st : FLState) (domain : String) :
    Option (Except String (List String) × List String) :=
  match normalizeDomain domain with
  | none => none
  | some d => some (lookupBlockLists st "domain" d)

/-- LookupASNString returns the sources that mark the ASN as blocked. -/
def LookupASNString (st : FLState) (asn : String) :
    Except String (List String) × List String :=
  lookupBlockLists st "asn" asn

/-- LookupIPv4String returns the sources that contain a reference to the
    given IPv4 string; the string is passed through unvalidated. -/
def LookupIPv4String (st : FLState) (ipv4 : String) :
    Except String (List String) × List String :=
  lookupBlockLists st "ipv4" ipv4

/-- LookupIPv6String returns the sources that contain a reference to the
    given IPv6 string; the string is passed through unvalidated. -/
def LookupIPv6String (st : FLState) (ipv6 : String) :
    Except String (List String) × List String :=
  lookupBlockLists st "ipv6" ipv6

/-- Modelled from the spec: the 12-byte head that embeds an IPv4 address in
    the 16-byte form of the external net library. -/
def v4MappedHead : List Nat := [0, 0, 0, 0, 0, 0, 0, 0, 0, 0, 0xff, 0xff]

/-- Modelled from the spec: the To4 conversion of the external net library; a
    net.IP byte slice converts to 4-byte form when it has length 4 or is a
    16-byte IPv4-mapped address. -/
def to4 (ip : List Nat) : Option (List Nat) :=
  if ip.length = 4 then some ip
  else if ip.length = 16 ∧ ip.take 12 = v4MappedHead then some (ip.drop 12)
  else none

/-- Modelled from the spec: the To16 conversion of the external net library; a
    4-byte address maps into the IPv4-in-IPv6 space, a 16-byte address is kept,
    anything else is invalid. -/
def to16 (ip : List Nat) : Option (List Nat) :=
  if ip.length = 4 then some (v4MappedHead ++ ip)
  else if ip.length = 16 then some ip
  else none

/-- Modelled from the spec: decimal digit string of a byte. -/
def natToDec (n : Nat) : String := String.mk (Nat.toDigits 10 n)

/-- Modelled from the spec: lower-case hexadecimal digit string of a 16-bit
    group, without leading zeros. -/
def natToHex (n : Nat) : String := String.mk (Nat.toDigits 16 n)

/-- Modelled from the spec: the 16-bit groups of a 16-byte address. -/
def bytesToGroups : List Nat → List Nat
  | b0 :: b1 :: rest => (b0 * 256 + b1) :: bytesToGroups rest
  | _ => []

/-- Modelled from the spec: length of the zero-group run starting at the head
    of the list. -/
def zeroRunLen : List Nat → Nat
  | 0 :: rest => zeroRunLen rest + 1
  | _ => 0

/-- Modelled from the spec: start index and length of the leftmost longest
    run of zero groups. -/
def bestZeroRun : List Nat → Nat → Nat × Nat
  | [], _ => (0, 0)
  | g :: rest, i =>
    let here := if g = 0 then zeroRunLen (g :: rest) else 0
    let best := bestZeroRun rest (i + 1)
    if here ≥ best.2 then (i, here) else best

/-- Modelled from the spec: groups joined with colon separators. -/
def joinGroups (gs : List Nat) : String :=
  String.intercalate ":" (gs.map natToHex)

/-- Modelled from the spec: canonical textual form of a 16-byte address that
    is not IPv4-mapped, with the leftmost longest run of at least two zero
    groups compressed to a double colon. -/
def v6GroupString (ip : List Nat) : String :=
  let gs := bytesToGroups ip
  let best := bestZeroRun gs 0
  if best.2 ≥ 2 then
    joinGroups (gs.take best.1) ++ "::" ++ joinGroups (gs.drop (best.1 + best.2))
  else joinGroups gs

/-- Modelled from the spec: canonical textual form of an address, as produced
    by the String method of the external net library: dotted decimal for an
    address in 4-byte form or IPv4-mapped 16-byte form, compressed colon-hex
    for other 16-byte addresses. -/
def ipString (ip : List Nat) : String :=
  if ip.length = 0 then "<nil>"
  else
    match to4 ip with
    | some [a, b, c, d] =>
      natToDec a ++ "." ++ natToDec b ++ "." ++ natToDec c ++ "." ++ natToDec d
    | some _ => "?"
    | none => if ip.length = 16 then v6GroupString ip else "?"

/-- LookupIPv4 converts the address to 4-byte form, failing with an invalid
    IPv4 error, and looks up its canonical string. -/
def LookupIPv4 (st : FLState) (ipv4 : List Nat) :
    Except String (List String) × List String :=
  match to4 ipv4 with
  | none => (Except.error "invalid IPv4", [])
  | some ip => LookupIPv4String st (ipString ip)

/-- LookupIPv6 converts the address to 16-byte form, failing with an invalid
    IPv6 error, and looks up its canonical string. -/
def LookupIPv6 (st : FLState) (ipv6 : List Nat) :
    Except String (List String) × List String :=
  match to16 ipv6 with
  | none => (Except.error "invalid IPv6", [])
  | some ip => LookupIPv6String st (ipString ip)

/-- LookupIP checks the IPv4 or IPv6 lists depending on the address family. -/
def LookupIP (st : FLState) (ip : List Nat) :
    Except String (List String) × List String :=
  if (to4 ip).isNone then LookupIPv6 st ip else LookupIPv4 st ip

/-- Modelled from the spec: hexadecimal digit test of the external parser. -/
def isHexChar (c : Char) : Bool :=
  c.isDigit || ('a' ≤ c && c ≤ 'f') || ('A' ≤ c && c ≤ 'F')

/-- Modelled from the spec: value of a hexadecimal digit. -/
def hexCharVal (c : Char) : Nat :=
  if c.isDigit then c.toNat - 48
  else if 'a' ≤ c && c ≤ 'f' then c.toNat - 87
  else c.toNat - 55

/-- Modelled from the spec: split a character list at every occurrence of the
    separator character. -/
def splitOnChar (sep : Char) : List Char → List (List Char)
  | [] => [[]]
  | c :: rest =>
    match splitOnChar sep rest with
    | [] => [[]]
    | cur :: parts => if c = sep then [] :: cur :: parts else (c :: cur) :: parts

/-- Modelled from the spec: split a character list at every occurrence of a
    double colon, leftmost first. -/
def splitOnColonColon : List Char → List (List Char)
  | [] => [[]]
  | ':' :: ':' :: rest => [] :: splitOnColonColon rest
  | c :: rest =>
    match splitOnColonColon rest with
    | [] => [[c]]
    | cur :: parts => (c :: cur) :: parts

/-- Modelled from the spec: one dotted-decimal field of an IPv4 address, a
    nonempty digit string with value at most 255. -/
def parseDecByte (t : List Char) : Option Nat :=
  if t ≠ [] ∧ t.all Char.isDigit then
    let n := t.foldl (fun a c => a * 10 + (c.toNat - 48)) 0
    if n ≤ 255 then some n else none
  else none

/-- Modelled from the spec: the dotted-decimal IPv4 parser of the external net
    library, yielding the four byte values. -/
def parseIPv4Chars (l : List Char) : Option (List Nat) :=
  let parts := splitOnChar '.' l
  if parts.length = 4 then parts.mapM parseDecByte else none

/-- Modelled from the spec: the dotted-decimal IPv4 parser on strings. -/
def parseIPv4 (s : String) : Option (List Nat) := parseIPv4Chars s.data

/-- Modelled from the spec: one colon-separated group of an IPv6 address, a
    nonempty hexadecimal string with value at most 0xFFFF. -/
def parseHexGroupVal (t : List Char) : Option Nat :=
  if t ≠ [] ∧ t.all isHexChar then
    let n := t.foldl (fun a c => a * 16 + hexCharVal c) 0
    if n ≤ 0xFFFF then some n else none
  else none

/-- Modelled from the spec: byte values of one side of an IPv6 address, the
    groups outside a double colon; a trailing dotted-decimal IPv4 part is
    accepted only in the final position and only where the caller allows it. -/
def parseSideGroups (v4AtEnd : Bool) : List (List Char) → Option (List Nat)
  | [] => some []
  | [g] =>
    if g.contains '.' then (if v4AtEnd then parseIPv4Chars g else none)
    else (parseHexGroupVal g).map fun n => [n / 256, n % 256]
  | g :: rest =>
    match parseHexGroupVal g, parseSideGroups v4AtEnd rest with
    | some n, some bs => some (n / 256 :: n % 256 :: bs)
    | _, _ => none

/-- Modelled from the spec: the IPv6 parser of the external net library; at
    most one double colon, which expands to the zero groups needed to reach 16
    bytes and must replace at least one group. -/
def parseIPv6Chars (l : List Char) : Option (List Nat) :=
  match splitOnColonColon l with
  | [whole] =>
    match parseSideGroups true (splitOnChar ':' whole) with
    | some bs => if bs.length = 16 then some bs else none
    | none => none
  | [lft, rgt] =>
    let lres := if lft = [] then some [] else parseSideGroups false (splitOnChar ':' lft)
    let rres := if rgt = [] then some [] else parseSideGroups true (splitOnChar ':' rgt)
    match lres, rres with
    | some lbs, some rbs =>
      if lbs.length + rbs.length ≤ 14 then
        some (lbs ++ List.replicate (16 - lbs.length - rbs.length) 0 ++ rbs)
      else none
    | _, _ => none
  | _ => none

/-- Modelled from the spec: the address parser of the external net library
    behind net.ParseIP; a dotted-decimal address yields the IPv4-mapped
    16-byte form, otherwise the IPv6 parser is tried. -/
def parseIP (s : String) : Option (List Nat) :=
  match parseIPv4Chars s.data with
  | some bs => some (v4MappedHead ++ bs)
  | none => parseIPv6Chars s.data

/-- LookupIPString parses an IPv4 or IPv6 address in string form, failing with
    an invalid IP error, and delegates to LookupIP. -/
def LookupIPString (st : FLState) (ipStr : String) :
    Except String (List String) × List String :=
  match parseIP ipStr with
  | none => (Except.error "invalid IP", [])
  | some ip => LookupIP st ip

lemma char_ofNat_toNat_add32 (n : Nat) (h1 : 65 ≤ n) (h2 : n ≤ 90) :
    (Char.ofNat (n + 32)).toNat = n + 32 := by
  interval_cases n <;> decide

lemma char_toLower_idem (c : Char) : c.toLower.toLower = c.toLower := by
  simp only [Char.toLower, ge_iff_le]
  by_cases h : 65 ≤ c.toNat ∧ c.toNat ≤ 90
  · have hv : (Char.ofNat (c.toNat + 32)).toNat = c.toNat + 32 :=
      char_ofNat_toNat_add32 c.toNat h.1 h.2
    rw [if_pos h, if_neg (by rw [hv]; omega)]
  · rw [if_neg h, if_neg h]

lemma map_toLower_idem (l : List Char) :
    (l.map Char.toLower).map Char.toLower = l.map Char.toLower := by
  rw [List.map_map]
  exact List.map_congr_left fun c _ => char_toLower_idem c

lemma normalizeDomainChars_idem (l : List Char) (h : l ≠ []) :
    ∃ d, normalizeDomainChars l = some d ∧ normalizeDomainChars d = some d := by
  have hd : l.map Char.toLower ≠ [] := fun hm => h (List.map_eq_nil_iff.mp hm)
  obtain ⟨c, hc⟩ : ∃ c, (l.map Char.toLower).getLast? = some c := by
    cases hLl : (l.map Char.toLower).getLast? with
    | none => exact absurd (List.getLast?_eq_none_iff.mp hLl) hd
    | some c => exact ⟨c, rfl⟩
  by_cases hdot : c = '.'
  · refine ⟨l.map Char.toLower, ?_, ?_⟩
    · unfold normalizeDomainChars
      rw [hc]
      simp [hdot]
    · unfold normalizeDomainChars
      rw [map_toLower_idem l, hc]
      simp [hdot]
  · refine ⟨l.map Char.toLower ++ ['.'], ?_, ?_⟩
    · unfold normalizeDomainChars
      rw [hc]
      simp [hdot]
    · unfold normalizeDomainChars
      have h1 : (l.map Char.toLower ++ ['.']).map Char.toLower =
          l.map Char.toLower ++ ['.'] := by
        rw [List.map_append, map_toLower_idem l]
        have hld : Char.toLower '.' = '.' := by decide
        simp [hld]
      rw [h1, List.getLast?_concat]
      simp

lemma data_ne_nil_of_ne_empty (s : String) (h : s ≠ "") : s.data ≠ [] := by
  intro hd
  exact h (by cases s; exact congrArg String.mk hd)

lemma normalizeDomain_some (d : String) (hd : d ≠ "") :
    ∃ d2, normalizeDomain d = some d2 := by
  obtain ⟨dc, h1, _⟩ := normalizeDomainChars_idem d.data (data_ne_nil_of_ne_empty d hd)
  exact ⟨String.mk dc, by simp [normalizeDomain, h1]⟩

lemma lookupBlockLists_not_loaded (st : FLState) (h : st.loaded = false)
    (entity value : String) : lookupBlockLists st entity value = (Except.ok [], []) := by
  simp [lookupBlockLists, isLoaded, h]

/-- Claim C3 counterexample: with the filter lists not loaded, the net.IP
    wrapper LookupIPv4 applied to a five-byte address returns an invalid
    address error rather than an empty source set with no error, so the claim
    fails for the net.IP wrappers at this input. -/
theorem lookupIPv4_error_not_loaded_counterexample :
    (FLState.mk false (fun _ _ => true) (fun _ => StoreResult.notFound)).loaded = false ∧
    LookupIPv4 (FLState.mk false (fun _ _ => true) (fun _ => StoreResult.notFound))
        [1, 2, 3, 4, 5] = (Except.error "invalid IPv4", []) :=
  ⟨rfl, rfl⟩

/-- Claim C3 as amended: while the lists are not loaded, LookupCountry,
    LookupASNString, LookupIPv4String and LookupIPv6String return an empty
    source set and no error for every input; LookupDomain does so for every
    nonempty input, the empty string being an index panic; and the net.IP
    wrappers do so for every address accepted by their family conversion,
    which runs before the loaded check and rejects other inputs with an
    invalid address error. -/
theorem not_loaded_fail_open_amended (st : FLState) (h : st.loaded = false) :
    (∀ v, LookupCountry st v = (Except.ok [], [])) ∧
    (∀ v, LookupASNString st v = (Except.ok [], [])) ∧
    (∀ v, LookupIPv4String st v = (Except.ok [], [])) ∧
    (∀ v, LookupIPv6String st v = (Except.ok [], [])) ∧
    (∀ d, d ≠ "" → LookupDomain st d = some (Except.ok [], [])) ∧
    (∀ ip, (to4 ip).isSome → LookupIPv4 st ip = (Except.ok [], [])) ∧
    (∀ ip, (to16 ip).isSome → LookupIPv6 st ip = (Except.ok [], [])) ∧
    (∀ ip, (to4 ip).isSome ∨ (to16 ip).isSome → LookupIP st ip = (Except.ok [], [])) := by
  have hbl := lookupBlockLists_not_loaded st h
  have h4 : ∀ ip, (to4 ip).isSome → LookupIPv4 st ip = (Except.ok [], []) := by
    intro ip hs
    obtain ⟨ip4, hip4⟩ := Option.isSome_iff_exists.mp hs
    simp [LookupIPv4, hip4, LookupIPv4String, hbl]
  have h6 : ∀ ip, (to16 ip).isSome → LookupIPv6 st ip = (Except.ok [], []) := by
    intro ip hs
    obtain ⟨ip16, hip16⟩ := Option.isSome_iff_exists.mp hs
    simp [LookupIPv6, hip16, LookupIPv6String, hbl]
  refine ⟨fun v => hbl "country" v, fun v => hbl "asn" v, fun v => hbl "ipv4" v,
    fun v => hbl "ipv6" v, ?_, h4, h6, ?_⟩
  · intro d hd
    obtain ⟨d2, hnorm⟩ := normalizeDomain_some d hd
    simp [LookupDomain, hnorm, hbl]
  · intro ip hor
    unfold LookupIP
    cases hto : to4 ip with
    | none =>
      rw [if_pos (show (none : Option (List Nat)).isNone = true from rfl)]
      rcases hor with h4s | h6s
      · rw [hto] at h4s
        cases h4s
      · exact h6 ip h6s
    | some ip4 =>
      rw [if_neg (show ¬(some ip4).isNone = true from by simp)]
      exact h4 ip (by rw [hto]; rfl)

/-- Witness for the amended C3 at concrete inputs of each category. -/
theorem not_loaded_fail_open_amended_witness :
    LookupCountry ⟨false, fun _ _ => true, fun _ => StoreResult.notFound⟩ "US" =
      (Except.ok [], []) ∧
    LookupDomain ⟨false, fun _ _ => true, fun _ => StoreResult.notFound⟩ "Example.com" =
      some (Except.ok [], []) ∧
    LookupIP ⟨false, fun _ _ => true, fun _ => StoreResult.notFound⟩ [1, 2, 3, 4] =
      (Except.ok [], []) := by
  have h := not_loaded_fail_open_amended
    ⟨false, fun _ _ => true, fun _ => StoreResult.notFound⟩ rfl
  exact ⟨h.1 "US", h.2.2.2.2.1 "Example.com" (by decide),
    h.2.2.2.2.2.2.2 [1, 2, 3, 4] (Or.inl (by decide))⟩

/-- Claim C4: with the lists loaded and the pre-filter negative on the given
    entity and value, the lookup returns an empty source set with no error and
    the trace of store keys queried is empty, so no record store query is
    performed, whatever the store would answer. -/
theorem prefilter_miss_no_store_query (st : FLState) (entity value : String)
    (hl : st.loaded = true) (hf : st.test entity value = false) :
    lookupBlockLists st entity value = (Except.ok [], []) := by
  simp [lookupBlockLists, isLoaded, hl, hf]

/-- Witness for C4 at the scenario of the specification: an IPv4 string lookup
    of 1.2.3.4 under a negative pre-filter, over a store that would report an
    error if it were consulted. -/
theorem prefilter_miss_no_store_query_witness :
    LookupIPv4String ⟨true, fun _ _ => false, fun _ => StoreResult.storeErr "boom"⟩
      "1.2.3.4" = (Except.ok [], []) :=
  prefilter_miss_no_store_query
    ⟨true, fun _ _ => false, fun _ => StoreResult.storeErr "boom"⟩ "ipv4" "1.2.3.4" rfl rfl

/-- Claim C5: with the lists loaded and the pre-filter positive, a NotFound
    answer from the store yields an empty source set and no error, any other
    store error is returned to the caller, and on success the Sources of the
    entry are returned verbatim; in each case exactly the normalized key was
    queried. -/
theorem store_result_handling (st : FLState) (entity value : String)
    (hl : st.loaded = true) (hf : st.test entity value = true) :
    (st.store (makeListCacheKey entity value) = StoreResult.notFound →
      lookupBlockLists st entity value = (Except.ok [], [makeListCacheKey entity value])) ∧
    (∀ msg, st.store (makeListCacheKey entity value) = StoreResult.storeErr msg →
      lookupBlockLists st entity value =
        (Except.error msg, [makeListCacheKey entity value])) ∧
    (∀ sources, st.store (makeListCacheKey entity value) = StoreResult.found sources →
      lookupBlockLists st entity value =
        (Except.ok sources, [makeListCacheKey entity value])) := by
  refine ⟨fun h => ?_, fun msg h => ?_, fun sources h => ?_⟩ <;>
    simp [lookupBlockLists, isLoaded, getEntityRecordByKey, hl, hf, h]

/-- Witness for C5: a NotFound store answer behind a positive pre-filter is
    recovered as an empty source set. -/
theorem store_result_handling_witness :
    lookupBlockLists ⟨true, fun _ _ => true, fun _ => StoreResult.notFound⟩ "domain"
      "example.com." = (Except.ok [], [makeListCacheKey "domain" "example.com."]) :=
  (store_result_handling ⟨true, fun _ _ => true, fun _ => StoreResult.notFound⟩
    "domain" "example.com." rfl rfl).1 rfl

/-- Claim C7: normalization maps Example.com and example.com. to the same key,
    and on every nonempty domain string it succeeds and is idempotent. -/
theorem normalizeDomain_idem :
    (normalizeDomain "Example.com" = some "example.com." ∧
     normalizeDomain "example.com." = some "example.com.") ∧
    (∀ s : String, s ≠ "" → ∃ d, normalizeDomain s = some d ∧ normalizeDomain d = some d) := by
  refine ⟨⟨by decide, by decide⟩, ?_⟩
  intro s hs
  obtain ⟨dc, h1, h2⟩ := normalizeDomainChars_idem s.data (data_ne_nil_of_ne_empty s hs)
  refine ⟨String.mk dc, by simp [normalizeDomain, h1], ?_⟩
  unfold normalizeDomain
  rw [show (String.mk dc).data = dc from rfl, h2]
  rfl

/-- Witness for C7 at a concrete mixed-case input without a trailing dot. -/
theorem normalizeDomain_idem_witness :
    ∃ d, normalizeDomain "Sub.Example.COM" = some d ∧ normalizeDomain d = some d :=
  normalizeDomain_idem.2 "Sub.Example.COM" (by decide)

/-- Claim C8 counterexample: LookupIPv4String performs no parse validation; on
    a malformed address it returns without error and even queries the store
    under the malformed key, returning whatever sources the store holds. -/
theorem lookupIPv4String_no_validation_counterexample :
    LookupIPv4String ⟨true, fun _ _ => true, fun _ => StoreResult.found ["list1"]⟩
      "not-an-ip" = (Except.ok ["list1"], ["cache:intel/filterlists/ipv4/not-an-ip"]) :=
  rfl

/-- Claim C8 as amended: only LookupIPString validates its input, failing with
    an invalid IP error before any pre-filter or store access on every string
    the address parser rejects; LookupIPv4String and LookupIPv6String pass the
    raw string through to the blocklist lookup unvalidated. -/
theorem ip_string_validation_amended :
    (∀ (st : FLState) (s : String), parseIP s = none →
      LookupIPString st s = (Except.error "invalid IP", [])) ∧
    (∀ (st : FLState) (v : String),
      LookupIPv4String st v = lookupBlockLists st "ipv4" v ∧
      LookupIPv6String st v = lookupBlockLists st "ipv6" v) := by
  refine ⟨fun st s h => ?_, fun st v => ⟨rfl, rfl⟩⟩
  simp [LookupIPString, h]

/-- Witness for the amended C8: the parser rejects a malformed string and
    LookupIPString fails on it with the invalid IP error and no store query. -/
theorem ip_string_validation_amended_witness :
    parseIP "not-an-ip" = none ∧
    LookupIPString ⟨true, fun _ _ => true, fun _ => StoreResult.notFound⟩ "not-an-ip" =
      (Except.error "invalid IP", []) :=
  ⟨by decide, ip_string_validation_amended.1
    ⟨true, fun _ _ => true, fun _ => StoreResult.notFound⟩ "not-an-ip" (by decide)⟩

/-- Claim C9 counterexample: LookupDomain applied to the empty string hits the
    out-of-range index in normalization, modelled as none, so it neither
    returns a source set nor an error; the state is fully healthy, so the
    failure is not a store problem. -/
theorem lookupDomain_empty_panics :
    LookupDomain ⟨true, fun _ _ => true, fun _ => StoreResult.found ["x"]⟩ "" = none :=
  rfl

/-- Claim C9 as amended: every typed lookup returns a source set or an error
    for every input, except LookupDomain on the empty string, which panics on
    an out-of-range index; and the shared lookup routine propagates an error
    only when the store itself reported that error, so NotFound and pre-filter
    misses are never surfaced as failures. -/
theorem lookup_no_panic_amended :
    (∀ (st : FLState) (d : String), d ≠ "" → ∃ r, LookupDomain st d = some r) ∧
    (∀ (st : FLState) (entity value msg : String),
      (lookupBlockLists st entity value).1 = Except.error msg →
      st.store (makeListCacheKey entity value) = StoreResult.storeErr msg) := by
  constructor
  · intro st d hd
    obtain ⟨d2, hnorm⟩ := normalizeDomain_some d hd
    exact ⟨lookupBlockLists st "domain" d2, by simp [LookupDomain, hnorm]⟩
  · intro st entity value msg h
    cases hl : st.loaded with
    | false => simp [lookupBlockLists, isLoaded, hl] at h
    | true =>
      cases hf : st.test entity value with
      | false => simp [lookupBlockLists, isLoaded, hl, hf] at h
      | true =>
        cases hs : st.store (makeListCacheKey entity value) with
        | found sources =>
          simp [lookupBlockLists, isLoaded, getEntityRecordByKey, hl, hf, hs] at h
        | notFound =>
          simp [lookupBlockLists, isLoaded, getEntityRecordByKey, hl, hf, hs] at h
        | storeErr m =>
          simp [lookupBlockLists, isLoaded, getEntityRecordByKey, hl, hf, hs] at h
          rw [h]

/-- Witness for the amended C9: a nonempty domain lookup returns a result, and
    a store failure surfaces exactly the store error. -/
theorem lookup_no_panic_amended_witness :
    (∃ r, LookupDomain ⟨false, fun _ _ => true, fun _ => StoreResult.notFound⟩ "a.com" =
      some r) ∧
    (FLState.mk true (fun _ _ => true) (fun _ => StoreResult.storeErr "disk")).store
      (makeListCacheKey "country" "US") = StoreResult.storeErr "disk" :=
  ⟨lookup_no_panic_amended.1 ⟨false, fun _ _ => true, fun _ => StoreResult.notFound⟩
      "a.com" (by decide),
   lookup_no_panic_amended.2 (FLState.mk true (fun _ _ => true)
      (fun _ => StoreResult.storeErr "disk")) "country" "US" "disk" rfl⟩
